import Mathlib

/-!
Verification development for the real-time family coordination backend
(NestJS + Redis + Supabase).  The definitions below are a shallow
embedding of the TypeScript sources:

* `src/redis/redis.service.ts`      — typed Redis wrapper (cache get/set,
  streams, pub/sub message delivery);
* `src/ghost-mode/ghost-mode.service.ts` — ghost-mode state and masking;
* `src/location/location.service.ts` — location ingest and history;
* `src/cache/cache.service.ts`      — read-through caches;
* `src/websocket/websocket.gateway.ts` — session gateway.

Machine numbers are embedded as `ℚ`/`ℤ` (the JSON values in play are
finite decimals), the masking transform as `ℝ` (it uses `Math.cos`,
`Math.sin`, `Math.random`).  Time-to-live arguments are dropped: no claim
below depends on expiry.  Fallible external effects (Redis commands,
repository queries) are modelled by explicit fault/result parameters.
-/

namespace FamBackend

/-! ## Redis value model

`RedisService.set` stores `typeof value === 'string' ? value : JSON.stringify(value)`
and `RedisService.get` returns `JSON.parse(value)` falling back to the raw
string when parsing fails.  A stored value is therefore observed through a
serialize-then-parse round trip: a *string* value is stored raw and then
JSON-parsed on read (so the string "1" comes back as the number 1), while
non-string values survive the round trip unchanged.  `RVal` covers the
value shapes that flow through the claims: numbers, strings, string
arrays (family-id lists) and member-object arrays. -/

structure FamilyMember where
  user_id : String
  family_id : String
  role : String
  name : String
  avatar_url : Option String
  joined_at : String
deriving DecidableEq

inductive RVal where
  | num (n : ℚ)
  | str (s : String)
  | arr (xs : List String)
  | members (ms : List FamilyMember)
deriving DecidableEq

/-- Value of a non-empty run of decimal digits; `Option.none` on any
non-digit character. -/
def digitsVal (acc : ℕ) : List Char → Option ℕ
  | [] => some acc
  | c :: cs =>
      if 48 ≤ c.toNat ∧ c.toNat ≤ 57 then digitsVal (acc * 10 + (c.toNat - 48)) cs
      else Option.none

/-- `JSON.parse` applied to a raw stored string: a decimal-digit literal
parses as a number, anything else (for the value space reaching `get` in
this codebase) falls back to the raw string. -/
def parseScalar (s : String) : RVal :=
  match s.data with
  | [] => RVal.str s
  | c :: cs =>
      match digitsVal 0 (c :: cs) with
      | some n => RVal.num n
      | Option.none => RVal.str s

/-- The serialize-then-parse round trip applied by `set`/`get`:
strings are stored raw and re-parsed on read; non-string values are
JSON-stringified and parse back to themselves. -/
def jsonRoundTrip : RVal → RVal
  | RVal.str s => parseScalar s
  | v => v

/-- JavaScript truthiness of a value returned by `get` (`null` is handled
by the caller): `0` and the empty string are falsy, arrays are truthy. -/
def jsTruthy : RVal → Bool
  | RVal.num n => n ≠ 0
  | RVal.str s => s ≠ ""
  | RVal.arr _ => true
  | RVal.members _ => true

/-- The Redis key/value store (string keys; values as observed after the
round trip). First binding for a key wins on lookup. -/
abbrev RStore := List (String × RVal)

def redisGet (store : RStore) (key : String) : Option RVal :=
  store.lookup key

def redisSet (store : RStore) (key : String) (v : RVal) : RStore :=
  (key, jsonRoundTrip v) :: store.filter (fun p => p.1 ≠ key)

def redisDel (store : RStore) (key : String) : RStore :=
  store.filter (fun p => p.1 ≠ key)

/-! ## Ghost-mode service (`ghost-mode.service.ts`) -/

inductive GhostScopeV where
  | globalScope
  | familyScope
  | noScope
deriving DecidableEq

/-- Result shape of `isGhostModeEnabled`. -/
structure GhostStatus where
  enabled : Bool
  scope : GhostScopeV
deriving DecidableEq

/-- Repository answers consumed by `isGhostModeEnabled` for a fixed
`(user, family)` pair: the `is_ghost_mode_enabled` RPC (`Option.none`
models an RPC error) and the `user_ghost_mode` row probe. -/
structure GhostRepo where
  isGhostRpc : Option Bool
  userGlobalRow : Option Bool
deriving DecidableEq

/-- `updateGhostModeCache` (ghost-mode.service.ts:272-300): writes the
string "1" or "0" under `ghost:family:<fid>:<uid>` when a family id is
given, else under `ghost:global:<uid>` (30-day TTL dropped). -/
def updateGhostModeCache (store : RStore) (userId : String)
    (familyId : Option String) (enabled : Bool) : RStore :=
  match familyId with
  | some fid =>
      redisSet store ("ghost:family:" ++ fid ++ ":" ++ userId)
        (RVal.str (if enabled then "1" else "0"))
  | Option.none =>
      redisSet store ("ghost:global:" ++ userId)
        (RVal.str (if enabled then "1" else "0"))

/-- `isGhostModeEnabled` (ghost-mode.service.ts:88-144).  Returns the
status, whether the repository was queried, and the store afterwards.
The cache checks compare the value returned by `get` against the string
'1' with strict equality (`=== '1'`). -/
def isGhostModeEnabled (store : RStore) (repo : GhostRepo)
    (userId familyId : String) : GhostStatus × Bool × RStore :=
  let globalCache := redisGet store ("ghost:global:" ++ userId)
  if globalCache = some (RVal.str "1") then
    (⟨true, GhostScopeV.globalScope⟩, false, store)
  else
    let familyCache := redisGet store ("ghost:family:" ++ familyId ++ ":" ++ userId)
    if familyCache = some (RVal.str "1") then
      (⟨true, GhostScopeV.familyScope⟩, false, store)
    else
      match repo.isGhostRpc with
      | Option.none => (⟨false, GhostScopeV.noScope⟩, true, store)
      | some false => (⟨false, GhostScopeV.noScope⟩, true, store)
      | some true =>
          match repo.userGlobalRow with
          | some true =>
              (⟨true, GhostScopeV.globalScope⟩, true,
                redisSet store ("ghost:global:" ++ userId) (RVal.str "1"))
          | _ =>
              (⟨true, GhostScopeV.familyScope⟩, true,
                redisSet store ("ghost:family:" ++ familyId ++ ":" ++ userId)
                  (RVal.str "1"))

/-- Effective ghost rule of the data model (spec §3 GhostMode): hidden
from family `f` iff the global flag is set or `f`'s per-family entry is
set. -/
def effectiveGhost (globalFlag : Bool) (perFamily : List String)
    (familyId : String) : Bool :=
  globalFlag || perFamily.contains familyId

/-! ## Masking transform (`ghost-mode.service.ts:183-200`)

`maskLocation` draws `Math.random()` twice; the two draws are passed in
explicitly as reals in `[0, 1)`.  `Math.cos`/`Math.sin`/`Math.PI` are
embedded as their real counterparts. -/

structure MaskedLoc where
  latitude : ℝ
  longitude : ℝ
  accuracy : ℝ

noncomputable def blurRadiusInDegrees (rand1 : ℝ) : ℝ := 0.005 + rand1 * 0.005

noncomputable def maskAngle (rand2 : ℝ) : ℝ := rand2 * 2 * Real.pi

noncomputable def maskLocation (latitude longitude : ℝ) (rand1 rand2 : ℝ) :
    MaskedLoc :=
  let latOffset := blurRadiusInDegrees rand1 * Real.cos (maskAngle rand2)
  let lonOffset := blurRadiusInDegrees rand1 * Real.sin (maskAngle rand2)
  { latitude := latitude + latOffset
    longitude := longitude + lonOffset
    accuracy := 1000 }

/-! ## Location service (`location.service.ts`) -/

/-- The payload the websocket gateway hands to `processLocationUpdate`
(`websocket.gateway.ts:188-196`); the optional DTO fields
altitude/bearing/speed are not carried on this path. -/
structure LocationUpdateDto where
  family_id : String
  latitude : ℚ
  longitude : ℚ
  accuracy : ℚ
  timestamp : ℤ
  batteryLevel : ℚ
  batteryState : String
deriving DecidableEq

/-- Record appended to the `locations:family:<fid>` stream (step 1). -/
structure StreamRecord where
  user_id : String
  family_id : String
  latitude : ℚ
  longitude : ℚ
  accuracy : ℚ
  timestamp : ℤ
  batteryLevel : ℚ
  batteryState : String
  server_timestamp : ℤ
deriving DecidableEq

/-- Value written to `user:<uid>:family:<fid>:last_location` (step 2). -/
structure LocationCache where
  user_id : String
  family_id : String
  latitude : ℚ
  longitude : ℚ
  accuracy : ℚ
  timestamp : ℤ
  batteryLevel : ℚ
deriving DecidableEq

/-- Payload published on `family:<fid>:location` (step 3). -/
structure LocationMessage where
  type : String
  user_id : String
  family_id : String
  latitude : ℚ
  longitude : ℚ
  accuracy : ℚ
  timestamp : ℤ
  batteryLevel : ℚ
deriving DecidableEq

/-- Success value of `processLocationUpdate`. -/
structure IngestOk where
  success : Bool
  message_id : String
  timestamp : ℤ
deriving DecidableEq

/-- Which of the three external effects fail in a given run:
`addToStream` (rethrows on error, redis.service.ts:75-93),
the latest-location cache write (its own try/catch swallows the error,
cache.service.ts:333-346) and `publish` (rethrows, redis.service.ts:221-242). -/
structure BackendFaults where
  appendFails : Bool
  cacheSetFails : Bool
  publishFails : Bool
deriving DecidableEq

/-- Observable side effects of one ingest run. -/
structure IngestEffects where
  appended : Option StreamRecord
  cacheWritten : Option LocationCache
  published : Option (String × LocationMessage)
deriving DecidableEq

/-- `processLocationUpdate` (location.service.ts:18-70).  `serverNow`
stands for `Date.now()` and `msgId` for the stream id Redis assigns.
A fault in `addToStream` or in `publish` propagates out of the
function's try/catch (which logs and rethrows); a fault in
`setLastLocation` is swallowed inside the cache service. -/
def processLocationUpdate (faults : BackendFaults) (userId : String)
    (dto : LocationUpdateDto) (serverNow : ℤ) (msgId : String) :
    Except String IngestOk × IngestEffects :=
  if faults.appendFails then
    (Except.error "stream append failed", ⟨Option.none, Option.none, Option.none⟩)
  else
    let record : StreamRecord :=
      { user_id := userId, family_id := dto.family_id
        latitude := dto.latitude, longitude := dto.longitude
        accuracy := dto.accuracy, timestamp := dto.timestamp
        batteryLevel := dto.batteryLevel, batteryState := dto.batteryState
        server_timestamp := serverNow }
    let cacheWritten : Option LocationCache :=
      if faults.cacheSetFails then Option.none
      else some
        { user_id := userId, family_id := dto.family_id
          latitude := dto.latitude, longitude := dto.longitude
          accuracy := dto.accuracy, timestamp := dto.timestamp
          batteryLevel := dto.batteryLevel }
    if faults.publishFails then
      (Except.error "publish failed", ⟨some record, cacheWritten, Option.none⟩)
    else
      let message : LocationMessage :=
        { type := "location_update", user_id := userId
          family_id := dto.family_id
          latitude := dto.latitude, longitude := dto.longitude
          accuracy := dto.accuracy, timestamp := dto.timestamp
          batteryLevel := dto.batteryLevel }
      (Except.ok ⟨true, msgId, serverNow⟩,
        ⟨some record, cacheWritten,
          some ("family:" ++ dto.family_id ++ ":location", message)⟩)

/-! ## Location history (`location.service.ts:75-115`)

Stream entries carry the fields written by ingest; `batteryLevel` is
optional in the record (`parseInt(msg.batteryLevel || '100')`).  Stream
ids are embedded as naturals, strictly increasing along the stream; the
cursor `'-'` (read from the beginning) is `Option.none`. -/

structure StreamEntry where
  id : ℕ
  user_id : String
  latitude : ℚ
  longitude : ℚ
  accuracy : ℚ
  timestamp : ℤ
  batteryLevel : Option ℚ
  server_timestamp : ℤ
deriving DecidableEq

/-- `id > cursor` (XREAD range semantics; `'-'` admits every id). -/
def idAfter (cursor : Option ℕ) (i : ℕ) : Bool :=
  match cursor with
  | Option.none => true
  | some a => a < i

/-- `readStream` (redis.service.ts:98-121): up to `count` entries with id
beyond the cursor, in stream order. -/
def readStream (stream : List StreamEntry) (count : ℕ) (lastId : Option ℕ) :
    List StreamEntry :=
  (stream.filter (fun e => idAfter lastId e.id)).take count

/-- `parseInt` on a finite-decimal JSON number: truncation toward zero. -/
def parseIntTrunc (q : ℚ) : ℤ :=
  if 0 ≤ q then Rat.floor q else -Rat.floor (-q)

/-- `parseInt(msg.batteryLevel || '100')`: an absent field and a falsy
present value (battery `0`) both fall back to the string '100'. -/
def jsBatteryDecode (b : Option ℚ) : ℤ :=
  match b with
  | Option.none => 100
  | some q => if q = 0 then 100 else parseIntTrunc q

structure DecodedLocation where
  id : ℕ
  user_id : String
  latitude : ℚ
  longitude : ℚ
  accuracy : ℚ
  timestamp : ℤ
  batteryLevel : ℤ
  server_timestamp : ℤ
deriving DecidableEq

/-- Field decode applied to each returned entry
(location.service.ts:96-105). -/
def decodeEntry (e : StreamEntry) : DecodedLocation :=
  { id := e.id, user_id := e.user_id
    latitude := e.latitude, longitude := e.longitude, accuracy := e.accuracy
    timestamp := e.timestamp
    batteryLevel := jsBatteryDecode e.batteryLevel
    server_timestamp := e.server_timestamp }

structure HistoryResult where
  locations : List DecodedLocation
  lastId : Option ℕ
deriving DecidableEq

/-- Does an entry pass the optional user filter? -/
def matchesUser (userId : Option String) (e : StreamEntry) : Bool :=
  match userId with
  | some u => e.user_id = u
  | Option.none => true

/-- `getLocationHistory` (location.service.ts:75-115): range-read, filter
by user when requested, decode, and report the id of the last *filtered*
entry (or the supplied cursor when nothing came back). -/
def getLocationHistory (stream : List StreamEntry) (userId : Option String)
    (limit : ℕ) (lastId : Option ℕ) : HistoryResult :=
  let messages := readStream stream limit lastId
  let filteredMessages := messages.filter (matchesUser userId)
  { locations := filteredMessages.map decodeEntry
    lastId :=
      match filteredMessages.getLast? with
      | some m => some m.id
      | Option.none => lastId }

/-! ## Cache service (`cache.service.ts`) -/

/-- `CACHE_ENABLED` handling (cache.service.ts:44):
`this.cacheEnabled = process.env.CACHE_ENABLED !== 'false'`. -/
def cacheEnabledFlag (env : Option String) : Bool :=
  env ≠ some "false"

/-- Outcome of a repository query: the admin client may be absent
(`getAdminClient()` returns null), the query may error, or rows come
back. -/
inductive RepoResult (α : Type) where
  | unavailable
  | failed
  | rows (data : α)
deriving DecidableEq

/-- Counters for the external interactions of one cache-service call. -/
structure QueryTrace where
  cacheGets : ℕ
  cacheSets : ℕ
  repoQueries : ℕ
deriving DecidableEq

/-- Row of the `family_members` join consumed by `getFamilyMembers`
(the `users` relation may be missing and its name may be empty). -/
structure MemberRow where
  user_id : String
  family_id : String
  role : String
  userName : Option String
  avatarUrl : Option String
  joined_at : String
deriving DecidableEq

/-- `item.users?.name || 'Unknown'` — absent relation, absent name and
empty name all fall back to 'Unknown'. -/
def memberName (userName : Option String) : String :=
  match userName with
  | some n => if n = "" then "Unknown" else n
  | Option.none => "Unknown"

def mkFamilyMember (row : MemberRow) : FamilyMember :=
  { user_id := row.user_id, family_id := row.family_id, role := row.role
    name := memberName row.userName, avatar_url := row.avatarUrl
    joined_at := row.joined_at }

/-- Reading a cached `family:<fid>:members` value back as a member list
(the TypeScript `get<FamilyMember[]>` is an unchecked cast). -/
def asMembers : RVal → List FamilyMember
  | RVal.members ms => ms
  | _ => []

/-- Reading a cached `user:<uid>:families` value back as a string list. -/
def asStrList : RVal → List String
  | RVal.arr xs => xs
  | _ => []

/-- `getFamilyMembers` (cache.service.ts:50-113): read-through over the
repository, guarded everywhere by `cacheEnabled`.  Returns the member
list, the store afterwards, and the interaction trace. -/
def getFamilyMembers (cacheEnabled : Bool) (store : RStore)
    (repo : RepoResult (List MemberRow)) (familyId : String) :
    List FamilyMember × RStore × QueryTrace :=
  let cacheKey := "family:" ++ familyId ++ ":members"
  let gets : ℕ := if cacheEnabled then 1 else 0
  let hit : Option RVal :=
    if cacheEnabled then
      match redisGet store cacheKey with
      | some v => if jsTruthy v then some v else Option.none
      | Option.none => Option.none
    else Option.none
  match hit with
  | some v => (asMembers v, store, ⟨gets, 0, 0⟩)
  | Option.none =>
      match repo with
      | RepoResult.unavailable => ([], store, ⟨gets, 0, 0⟩)
      | RepoResult.failed => ([], store, ⟨gets, 0, 1⟩)
      | RepoResult.rows data =>
          let members := data.map mkFamilyMember
          if cacheEnabled then
            (members, redisSet store cacheKey (RVal.members members), ⟨gets, 1, 1⟩)
          else
            (members, store, ⟨gets, 0, 1⟩)

/-- `n` successive `getFamilyMembers` calls against a fixed repository,
threading the store; returns the final store and the total number of
repository queries issued. -/
def iterFamilyMembers (cacheEnabled : Bool) (repo : RepoResult (List MemberRow))
    (familyId : String) : ℕ → RStore → RStore × ℕ
  | 0, store => (store, 0)
  | n + 1, store =>
      let r := getFamilyMembers cacheEnabled store repo familyId
      let rest := iterFamilyMembers cacheEnabled repo familyId n r.2.1
      (rest.1, r.2.2.repoQueries + rest.2)

/-- `getUserFamilyIds` (cache.service.ts:139-192): like the members
getter, but the write-back is additionally guarded by
`familyIds.length > 0`. -/
def getUserFamilyIds (cacheEnabled : Bool) (store : RStore)
    (repo : RepoResult (List String)) (userId : String) :
    List String × RStore × QueryTrace :=
  let cacheKey := "user:" ++ userId ++ ":families"
  let gets : ℕ := if cacheEnabled then 1 else 0
  let hit : Option RVal :=
    if cacheEnabled then
      match redisGet store cacheKey with
      | some v => if jsTruthy v then some v else Option.none
      | Option.none => Option.none
    else Option.none
  match hit with
  | some v => (asStrList v, store, ⟨gets, 0, 0⟩)
  | Option.none =>
      match repo with
      | RepoResult.unavailable => ([], store, ⟨gets, 0, 0⟩)
      | RepoResult.failed => ([], store, ⟨gets, 0, 1⟩)
      | RepoResult.rows familyIds =>
          if cacheEnabled ∧ familyIds.length > 0 then
            (familyIds, redisSet store cacheKey (RVal.arr familyIds), ⟨gets, 1, 1⟩)
          else
            (familyIds, store, ⟨gets, 0, 1⟩)

/-- `n` successive `getUserFamilyIds` calls, threading the store;
returns the final store and the total number of repository queries. -/
def iterUserFamilyIds (cacheEnabled : Bool) (repo : RepoResult (List String))
    (userId : String) : ℕ → RStore → RStore × ℕ
  | 0, store => (store, 0)
  | n + 1, store =>
      let r := getUserFamilyIds cacheEnabled store repo userId
      let rest := iterUserFamilyIds cacheEnabled repo userId n r.2.1
      (rest.1, r.2.2.repoQueries + rest.2)

/-! ## Websocket gateway (`websocket.gateway.ts`)

Each `@SubscribeMessage` handler is embedded as a pure function from the
authenticated socket state and the payload to an acknowledgment plus a
list of side effects.  The `connectedUsers` map (`userId → Set<socketId>`)
is an association list whose entries keep insertion order and hold
duplicate-free socket lists. -/

/-- Authenticated socket state attached in `handleConnection`. -/
structure SessionClient where
  userId : String
  familyIds : List String
deriving DecidableEq

/-- Acknowledgment object; absent JSON fields are `Option.none`. -/
structure Ack where
  success : Bool
  error : Option String
  family_id : Option String
  message : Option String
  timestamp : Option ℤ
deriving DecidableEq

/-- Side effects a handler can perform. -/
inductive GwEffect where
  | joinRoom (room : String)
  | leaveRoom (socketId room : String)
  | setOnline (userId familyId : String) (isOn : Bool)
  | presenceUpdate (room userId familyId status : String)
  | emitRoom (room event : String)
  | emitSocketsOf (userId event : String)
  | emitSocket (socketId event : String)
  | ingest (userId : String) (dto : LocationUpdateDto)
  | setGlobalGhost (userId : String) (enabled : Bool)
  | setFamilyGhost (userId familyId : String) (enabled : Bool)
  | invalidateOnJoin (userId familyId : String)
  | invalidateOnLeave (userId familyId : String)
  | invalidateAllFamily (familyId : String)
  | invalidateFamilyGhost (familyId : String)
  | invalidateUserFamilies (userId : String)
  | invalidateUserRole (userId familyId : String)
  | updateAllFamilyCache (familyId : String)
  | disconnectSocket (socketId : String)
deriving DecidableEq

/-- `connectedUsers : Map<userId, Set<socketId>>`. -/
abbrev ConnectedUsers := List (String × List String)

/-- `connectedUsers.get(uid).add(sid)` with `set(uid, new Set())` when
absent (websocket.gateway.ts:87-90). -/
def cuAdd : ConnectedUsers → String → String → ConnectedUsers
  | [], uid, sid => [(uid, [sid])]
  | (u, l) :: rest, uid, sid =>
      if u = uid then (u, if sid ∈ l then l else l ++ [sid]) :: rest
      else (u, l) :: cuAdd rest uid sid

/-- `userSockets.delete(sid)` followed by dropping the map entry when the
set became empty (websocket.gateway.ts:131-137). -/
def cuRemove : ConnectedUsers → String → String → ConnectedUsers
  | [], _, _ => []
  | (u, l) :: rest, uid, sid =>
      if u = uid then
        let l' := l.erase sid
        if l' = [] then rest else (u, l') :: rest
      else (u, l) :: cuRemove rest uid sid

/-- Sockets currently held by a user. -/
def cuSockets (cu : ConnectedUsers) (uid : String) : Option (List String) :=
  cu.lookup uid

/-- `handleConnection` after successful authentication
(websocket.gateway.ts:54-124): track the socket, join every family room,
set online status, broadcast an `online` presence update per family, and
ack `connected` to the client. -/
def handleConnection (cu : ConnectedUsers) (uid sid : String)
    (familyIds : List String) : ConnectedUsers × List GwEffect :=
  (cuAdd cu uid sid,
    ((familyIds.map (fun f =>
        [GwEffect.joinRoom ("family:" ++ f),
         GwEffect.setOnline uid f true,
         GwEffect.presenceUpdate ("family:" ++ f) uid f "online"])).flatten)
      ++ [GwEffect.emitSocket sid "connected"])

/-- `handleDisconnect` (websocket.gateway.ts:126-162) for an
authenticated socket: remove the socket from tracking; when that was the
user's last socket, clear online status and broadcast one `offline`
presence update per family of the socket. -/
def handleDisconnect (cu : ConnectedUsers) (uid sid : String)
    (familyIds : List String) : ConnectedUsers × List GwEffect :=
  match cuSockets cu uid with
  | Option.none => (cu, [])
  | some l =>
      let l' := l.erase sid
      if l' = [] then
        (cuRemove cu uid sid,
          (familyIds.map (fun f =>
            [GwEffect.setOnline uid f false,
             GwEffect.presenceUpdate ("family:" ++ f) uid f "offline"])).flatten)
      else (cuRemove cu uid sid, [])

/-- Presence broadcasts among a handler's effects, as
`(user_id, family_id, status)` triples. -/
def presenceEvents (effects : List GwEffect) : List (String × String × String) :=
  effects.filterMap (fun e =>
    match e with
    | GwEffect.presenceUpdate _ uid fid status => some (uid, fid, status)
    | _ => Option.none)

/-- Raw `location_update` payload (`data: any`); `family_id` may be
absent. -/
structure LocationPayload where
  family_id : Option String
  latitude : ℚ
  longitude : ℚ
  accuracy : ℚ
  timestamp : ℤ
  batteryLevel : ℚ
  batteryState : String
deriving DecidableEq

/-- `!family_id` — absent or empty string. -/
def familyIdFalsy (f : Option String) : Bool :=
  match f with
  | Option.none => true
  | some s => s = ""

/-- `handleLocationUpdate` (websocket.gateway.ts:164-210).  On a missing
or unauthorized family id it acks `{success:false, timestamp}` — with no
`error` field — and performs no effect. -/
def handleLocationUpdate (client : SessionClient) (data : LocationPayload)
    (now : ℤ) : Ack × List GwEffect :=
  match data.family_id with
  | Option.none =>
      (⟨false, Option.none, Option.none, Option.none, some now⟩, [])
  | some fid =>
      if fid = "" ∨ ¬ client.familyIds.contains fid then
        (⟨false, Option.none, Option.none, Option.none, some now⟩, [])
      else
        (⟨true, Option.none, Option.none, Option.none, some now⟩,
          [GwEffect.ingest client.userId
            { family_id := fid, latitude := data.latitude
              longitude := data.longitude, accuracy := data.accuracy
              timestamp := data.timestamp, batteryLevel := data.batteryLevel
              batteryState := data.batteryState }])

/-- `handleJoinFamily` (websocket.gateway.ts:217-261). -/
def handleJoinFamily (client : SessionClient) (family_id : String) :
    Ack × List GwEffect :=
  if ¬ client.familyIds.contains family_id then
    (⟨false, some "Unauthorized family access", Option.none, Option.none,
      Option.none⟩, [])
  else
    (⟨true, Option.none, some family_id, Option.none, Option.none⟩,
      [GwEffect.joinRoom ("family:" ++ family_id),
       GwEffect.setOnline client.userId family_id true,
       GwEffect.presenceUpdate ("family:" ++ family_id) client.userId
         family_id "online"])

/-- `ghost_mode` payload. -/
structure GhostModePayload where
  enabled : Bool
  scope : String
  family_id : Option String
deriving DecidableEq

/-- `handleGhostMode` (websocket.gateway.ts:290-350). -/
def handleGhostMode (client : SessionClient) (data : GhostModePayload) :
    Ack × List GwEffect :=
  if data.scope = "global" then
    (⟨true, Option.none, Option.none, Option.none, Option.none⟩,
      GwEffect.setGlobalGhost client.userId data.enabled ::
        client.familyIds.map (fun f => GwEffect.emitRoom ("family:" ++ f) "ghost_mode"))
  else
    match data.family_id with
    | some fid =>
        if data.scope = "family" ∧ fid ≠ "" then
          if ¬ client.familyIds.contains fid then
            (⟨false, some "Unauthorized family access", Option.none,
              Option.none, Option.none⟩, [])
          else
            (⟨true, Option.none, Option.none, Option.none, Option.none⟩,
              [GwEffect.setFamilyGhost client.userId fid data.enabled,
               GwEffect.emitRoom ("family:" ++ fid) "ghost_mode"])
        else
          (⟨false, some "Invalid ghost mode request", Option.none,
            Option.none, Option.none⟩, [])
    | Option.none =>
        (⟨false, some "Invalid ghost mode request", Option.none,
          Option.none, Option.none⟩, [])

/-- `handleUserAddedToFamily` (websocket.gateway.ts:356-410). -/
def handleUserAddedToFamily (client : SessionClient)
    (family_id added_user_id role : String) : Ack × List GwEffect :=
  if ¬ client.familyIds.contains family_id then
    (⟨false, some "Unauthorized family access", Option.none, Option.none,
      Option.none⟩, [])
  else
    (⟨true, Option.none, Option.none,
      some "User added and cache invalidated", Option.none⟩,
      [GwEffect.invalidateOnJoin added_user_id family_id,
       GwEffect.emitRoom ("family:" ++ family_id) "family_member_added",
       GwEffect.emitSocketsOf added_user_id "added_to_family"])

/-- `handleUserRemovedFromFamily` (websocket.gateway.ts:416-478); the
force-leave walks the removed user's tracked sockets. -/
def handleUserRemovedFromFamily (cu : ConnectedUsers) (client : SessionClient)
    (family_id removed_user_id : String) : Ack × List GwEffect :=
  if ¬ client.familyIds.contains family_id then
    (⟨false, some "Unauthorized family access", Option.none, Option.none,
      Option.none⟩, [])
  else
    (⟨true, Option.none, Option.none,
      some "User removed and cache invalidated", Option.none⟩,
      [GwEffect.invalidateOnLeave removed_user_id family_id,
       GwEffect.emitRoom ("family:" ++ family_id) "family_member_removed",
       GwEffect.emitSocketsOf removed_user_id "removed_from_family"]
      ++ ((cuSockets cu removed_user_id).getD []).map
          (fun sid => GwEffect.leaveRoom sid ("family:" ++ family_id)))

/-- `handleFamilyDeleted` (websocket.gateway.ts:484-546); `memberIds`
stands for the member snapshot `getFamilyMembers` returned. -/
def handleFamilyDeleted (cu : ConnectedUsers) (client : SessionClient)
    (family_id : String) (memberIds : List String) : Ack × List GwEffect :=
  if ¬ client.familyIds.contains family_id then
    (⟨false, some "Unauthorized family access", Option.none, Option.none,
      Option.none⟩, [])
  else
    (⟨true, Option.none, Option.none,
      some "Family deleted and all cache invalidated", Option.none⟩,
      [GwEffect.invalidateAllFamily family_id,
       GwEffect.invalidateFamilyGhost family_id,
       GwEffect.emitRoom ("family:" ++ family_id) "family_deleted"]
      ++ ((memberIds.map (fun m =>
            GwEffect.invalidateUserFamilies m ::
              ((cuSockets cu m).getD []).map
                (fun sid => GwEffect.leaveRoom sid ("family:" ++ family_id)))).flatten))

/-- `handleMemberRoleUpdated` (websocket.gateway.ts:552-603). -/
def handleMemberRoleUpdated (client : SessionClient)
    (family_id user_id new_role : String) : Ack × List GwEffect :=
  if ¬ client.familyIds.contains family_id then
    (⟨false, some "Unauthorized family access", Option.none, Option.none,
      Option.none⟩, [])
  else
    (⟨true, Option.none, Option.none,
      some "Role updated and cache invalidated", Option.none⟩,
      [GwEffect.invalidateUserRole user_id family_id,
       GwEffect.emitRoom ("family:" ++ family_id) "member_role_updated",
       GwEffect.emitSocketsOf user_id "your_role_updated"])

/-- `handleRefreshFamilyCache` (websocket.gateway.ts:609-646). -/
def handleRefreshFamilyCache (client : SessionClient) (family_id : String) :
    Ack × List GwEffect :=
  if ¬ client.familyIds.contains family_id then
    (⟨false, some "Unauthorized family access", Option.none, Option.none,
      Option.none⟩, [])
  else
    (⟨true, Option.none, Option.none, some "Family cache refreshed",
      Option.none⟩,
      [GwEffect.updateAllFamilyCache family_id,
       GwEffect.emitRoom ("family:" ++ family_id) "cache_refreshed"])

/-! ## Pub/sub delivery (`redis.service.ts:247-275, 465-486`)

A subscriber is a callback registered on a channel; its behavior on a
given message is abstracted as `throwsOn` (does the callback raise?).
`handleMessage` copies nothing out but invokes each registered callback
inside its own try/catch, so one throwing callback neither stops
delivery to the rest nor changes the subscriber map. -/

structure Subscriber where
  sid : ℕ
  throwsOn : List String
deriving DecidableEq

/-- Does this callback raise on the given message? -/
def throwsAt (cb : Subscriber) (message : String) : Bool :=
  cb.throwsOn.contains message

abbrev SubscriberMap := List (String × List Subscriber)

/-- `subscribe` (redis.service.ts:247-275): create the channel entry on
first use, then add the callback to its set. -/
def subscribeChannel : SubscriberMap → String → Subscriber → SubscriberMap
  | [], channel, cb => [(channel, [cb])]
  | (c, cbs) :: rest, channel, cb =>
      if c = channel then (c, cbs ++ [cb]) :: rest
      else (c, cbs) :: subscribeChannel rest channel cb

/-- `handleMessage` (redis.service.ts:465-486): look up the channel's
callbacks and invoke every one of them on the message; a throw is caught
and logged per callback.  Returns the invocation log — `(sid, threw?)`
per callback, in registration order — and the subscriber map afterwards
(delivery never mutates it). -/
def handleMessage (subs : SubscriberMap) (channel message : String) :
    List (ℕ × Bool) × SubscriberMap :=
  match subs.lookup channel with
  | Option.none => ([], subs)
  | some cbs => (cbs.map (fun cb => (cb.sid, throwsAt cb message)), subs)

/-! ## Concrete inputs used in counterexamples and witnesses -/

/-- A concrete location sample (claim scenario values). -/
def dtoA : LocationUpdateDto :=
  { family_id := "fA", latitude := 40, longitude := -74, accuracy := 8
    timestamp := 1700000000000, batteryLevel := 55, batteryState := "charging" }

/-- The message ingest publishes for `dtoA` from user u2. -/
def msgA : LocationMessage :=
  { type := "location_update", user_id := "u2", family_id := "fA"
    latitude := 40, longitude := -74, accuracy := 8
    timestamp := 1700000000000, batteryLevel := 55 }

/-- Cache state after `setGlobalGhostMode("u1", true)` ran its cache
update: `ghost:global:u1` written with the string "1". -/
def ghostStoreG : RStore := updateGhostModeCache [] "u1" Option.none true

/-- Cache state after `setFamilyGhostMode("u1", "f1", true)` ran its
cache update: `ghost:family:f1:u1` written with the string "1". -/
def ghostStoreF : RStore := updateGhostModeCache [] "u1" (some "f1") true

/-- A repository answering "not ghosted" (models the window before the
row lands, or an unreachable repository treated as disabled). -/
def ghostRepoOff : GhostRepo := { isGhostRpc := some false, userGlobalRow := some false }

/-! ## Claim C1 -/

/-- C1 (counterexample): with global ghost mode on for u2 in fA
(`effectiveGhost = true`), the message `processLocationUpdate` publishes
on `family:fA:location` carries exactly the raw sample coordinates and
the raw accuracy 8 (not the masked accuracy 1000): the published
coordinates ARE the raw sample coordinates, refuting the claimed
"masked iff effective_ghost" equivalence.  `maskLocation` is never
invoked on the publish path. -/
theorem C1_counterexample :
    effectiveGhost true [] "fA" = true ∧
    (processLocationUpdate ⟨false, false, false⟩ "u2" dtoA 1000 "7-0").2.published =
      some ("family:" ++ "fA" ++ ":location", msgA) ∧
    msgA.latitude = dtoA.latitude ∧ msgA.longitude = dtoA.longitude ∧
    msgA.accuracy = dtoA.accuracy ∧ msgA.accuracy ≠ 1000 := by
  refine ⟨rfl, rfl, rfl, rfl, rfl, ?_⟩
  intro h
  exact absurd (congrArg (fun q : ℚ => q.num) h) (by decide)

/-- C1 (amended): the publish path never masks — whenever
`processLocationUpdate` publishes, the payload carries the raw sample
latitude, longitude and accuracy, independently of any ghost-mode state
(which is not even an input of the function), so broadcast coordinates
are masked for no ingest at all. -/
theorem C1_publish_always_raw (faults : BackendFaults) (userId : String)
    (dto : LocationUpdateDto) (now : ℤ) (msgId : String) (ch : String)
    (msg : LocationMessage)
    (h : (processLocationUpdate faults userId dto now msgId).2.published =
      some (ch, msg)) :
    msg.latitude = dto.latitude ∧ msg.longitude = dto.longitude ∧
      msg.accuracy = dto.accuracy ∧
      ch = "family:" ++ dto.family_id ++ ":location" := by
  rcases faults with ⟨a, c, p⟩
  cases a <;> cases p <;>
    simp [processLocationUpdate] at h <;>
    simp [← h.1, ← h.2]

/-- Witness for `C1_publish_always_raw` at a concrete run. -/
theorem C1_publish_always_raw_witness :
    ((processLocationUpdate ⟨false, false, false⟩ "u2" dtoA 1000 "7-0").2.published =
      some ("family:" ++ "fA" ++ ":location", msgA)) ∧
    (msgA.latitude = dtoA.latitude ∧ msgA.longitude = dtoA.longitude ∧
      msgA.accuracy = dtoA.accuracy ∧
      "family:" ++ "fA" ++ ":location" = "family:" ++ dtoA.family_id ++ ":location") :=
  ⟨rfl, C1_publish_always_raw ⟨false, false, false⟩ "u2" dtoA 1000 "7-0" _ _ rfl⟩

/-! ## Claim C2 -/

/-- C2 (counterexample): a run in which the append succeeds (a record is
appended) but the pub/sub publish fails — `publish` rethrows
(redis.service.ts:238-241) and `processLocationUpdate`'s catch rethrows
(location.service.ts:66-69), so the ingest reports an error instead of
the claimed `{success:true, …}`. -/
theorem C2_counterexample :
    (processLocationUpdate ⟨false, false, true⟩ "u1" dtoA 1000 "5-0").1 =
      Except.error "publish failed" ∧
    ((processLocationUpdate ⟨false, false, true⟩ "u1" dtoA 1000 "5-0").2.appended).isSome =
      true := by
  exact ⟨rfl, rfl⟩

/-- C2 (amended): ingest succeeds iff neither the durable append nor the
pub/sub publish fails; only a failure of the latest-location cache write
(step 3) is swallowed — it never affects the returned result. -/
theorem C2_ingest_success_iff_append_and_publish_ok (faults : BackendFaults)
    (userId : String) (dto : LocationUpdateDto) (now : ℤ) (msgId : String) :
    (processLocationUpdate faults userId dto now msgId).1 =
        Except.ok ⟨true, msgId, now⟩ ↔
      (faults.appendFails = false ∧ faults.publishFails = false) := by
  rcases faults with ⟨a, c, p⟩
  cases a <;> cases p <;> simp [processLocationUpdate]

/-! ## Claim C3 -/

/-- C3 (code bug): `updateGhostModeCache` stores the string "1", but
`RedisService.get` JSON-parses it back as the *number* 1, so the strict
comparison `=== '1'` in `isGhostModeEnabled` never matches a cached
"enabled" entry: with `ghost:global:u1` holding the value written for
"enabled", the call still queries the repository (second component
`true`), and with a repository answering "not ghosted" it returns
`{enabled:false, scope:none}` instead of the claimed
`{enabled:true, scope:global}` served from cache; likewise for the
family-scoped key. -/
theorem C3_ghost_cache_hit_never_fires :
    redisGet ghostStoreG ("ghost:global:" ++ "u1") = some (RVal.num 1) ∧
    (isGhostModeEnabled ghostStoreG ghostRepoOff "u1" "f1").2.1 = true ∧
    (isGhostModeEnabled ghostStoreG ghostRepoOff "u1" "f1").1 =
      ⟨false, GhostScopeV.noScope⟩ ∧
    redisGet ghostStoreF ("ghost:family:" ++ "f1" ++ ":" ++ "u1") =
      some (RVal.num 1) ∧
    (isGhostModeEnabled ghostStoreF ghostRepoOff "u1" "f1").2.1 = true ∧
    (isGhostModeEnabled ghostStoreF ghostRepoOff "u1" "f1").1 =
      ⟨false, GhostScopeV.noScope⟩ := by
  refine ⟨?_, ?_, ?_, ?_, ?_, ?_⟩ <;> decide

/-! ## Claim C5 -/

/-- A socket authenticated as u1 with the single family fA. -/
def clientA : SessionClient := { userId := "u1", familyIds := ["fA"] }

/-- A location payload naming the foreign family fB. -/
def payloadB : LocationPayload :=
  { family_id := some "fB", latitude := 40, longitude := -74, accuracy := 8
    timestamp := 1700000000000, batteryLevel := 55, batteryState := "full" }

/-- The unauthorized acknowledgment shared by the family-scoped handlers
other than `location_update`. -/
def unauthorizedAck : Ack :=
  ⟨false, some "Unauthorized family access", Option.none, Option.none,
    Option.none⟩

/-- C5 (counterexample): `handleLocationUpdate` on an unauthorized family
id acks `{success:false, timestamp}` with NO `error` field
(websocket.gateway.ts:180-185), not the claimed
`{success:false, error:"Unauthorized family access"}`. -/
theorem C5_counterexample :
    clientA.familyIds.contains "fB" = false ∧
    (handleLocationUpdate clientA payloadB 1000).1.success = false ∧
    (handleLocationUpdate clientA payloadB 1000).1.error = Option.none ∧
    (handleLocationUpdate clientA payloadB 1000).1.error ≠
      some "Unauthorized family access" ∧
    (handleLocationUpdate clientA payloadB 1000).2 = [] := by
  refine ⟨?_, ?_, ?_, ?_, ?_⟩ <;> decide

/-- C5 (amended): on a family id outside the socket's set, every
family-scoped handler performs no effect (in particular the socket is
not closed) and acks `{success:false}`; all of them carry
`error:"Unauthorized family access"` except `location_update`, whose ack
is `{success:false, timestamp}` without an `error` field. -/
theorem C5_unauthorized_acks (cu : ConnectedUsers) (client : SessionClient)
    (fid : String) (now : ℤ) (lat lon acc : ℚ) (ts : ℤ) (bat : ℚ)
    (bst : String) (enabled : Bool) (uid2 role : String)
    (memberIds : List String)
    (hne : fid ≠ "") (h : client.familyIds.contains fid = false) :
    handleLocationUpdate client ⟨some fid, lat, lon, acc, ts, bat, bst⟩ now =
      (⟨false, Option.none, Option.none, Option.none, some now⟩, []) ∧
    handleJoinFamily client fid = (unauthorizedAck, []) ∧
    handleGhostMode client ⟨enabled, "family", some fid⟩ = (unauthorizedAck, []) ∧
    handleUserAddedToFamily client fid uid2 role = (unauthorizedAck, []) ∧
    handleUserRemovedFromFamily cu client fid uid2 = (unauthorizedAck, []) ∧
    handleFamilyDeleted cu client fid memberIds = (unauthorizedAck, []) ∧
    handleMemberRoleUpdated client fid uid2 role = (unauthorizedAck, []) ∧
    handleRefreshFamilyCache client fid = (unauthorizedAck, []) := by
  have hmem : fid ∉ client.familyIds := by simpa using h
  refine ⟨?_, ?_, ?_, ?_, ?_, ?_, ?_, ?_⟩ <;>
    simp [handleLocationUpdate, handleJoinFamily, handleGhostMode,
      handleUserAddedToFamily, handleUserRemovedFromFamily,
      handleFamilyDeleted, handleMemberRoleUpdated, handleRefreshFamilyCache,
      unauthorizedAck, h, hne, hmem]

/-- Witness for `C5_unauthorized_acks` at a concrete socket and family. -/
theorem C5_unauthorized_acks_witness :
    ("fB" ≠ "" ∧ clientA.familyIds.contains "fB" = false) ∧
    (handleJoinFamily clientA "fB" = (unauthorizedAck, []) ∧
      handleRefreshFamilyCache clientA "fB" = (unauthorizedAck, [])) :=
  ⟨⟨by decide, by decide⟩,
    ⟨(C5_unauthorized_acks [] clientA "fB" 0 0 0 0 0 0 "" false "u9" "member"
        [] (by decide) (by decide)).2.1,
      (C5_unauthorized_acks [] clientA "fB" 0 0 0 0 0 0 "" false "u9" "member"
        [] (by decide) (by decide)).2.2.2.2.2.2.2⟩⟩

/-! ## Claim C7 -/

/-- C7: with `CACHE_ENABLED=false` the members getter touches the cache
neither for reading nor writing, leaves the store untouched, returns the
repository's current rows, and `n` successive calls issue `n` repository
queries. -/
theorem C7_cache_disabled_direct_repo (store : RStore)
    (rowsData : List MemberRow) (fid : String) (n : ℕ) :
    cacheEnabledFlag (some "false") = false ∧
    getFamilyMembers (cacheEnabledFlag (some "false")) store
        (RepoResult.rows rowsData) fid =
      (rowsData.map mkFamilyMember, store, ⟨0, 0, 1⟩) ∧
    iterFamilyMembers (cacheEnabledFlag (some "false"))
        (RepoResult.rows rowsData) fid n store = (store, n) := by
  have hflag : cacheEnabledFlag (some "false") = false := by decide
  refine ⟨hflag, ?_, ?_⟩
  · rw [hflag]
    simp [getFamilyMembers]
  · rw [hflag]
    induction n generalizing store with
    | zero => simp [iterFamilyMembers]
    | succ k ih =>
        simp [iterFamilyMembers, getFamilyMembers, ih, Nat.add_comm]

/-! ## Claim C10 -/

/-- C10: `getUserFamilyIds` only ever writes the cache with a non-empty
list; for a user with zero memberships (repository returns no rows) and
no cached entry, every call returns `[]`, issues one repository query
and leaves the store unchanged, so `n` successive calls issue `n`
repository queries — the empty result is never served from cache. -/
theorem C10_empty_families_never_cached :
    (∀ (ce : Bool) (store : RStore) (repo : RepoResult (List String))
        (uid : String),
      (getUserFamilyIds ce store repo uid).2.2.cacheSets ≠ 0 →
        (getUserFamilyIds ce store repo uid).1 ≠ []) ∧
    (∀ (store : RStore) (uid : String),
      redisGet store ("user:" ++ uid ++ ":families") = Option.none →
        getUserFamilyIds true store (RepoResult.rows []) uid =
          ([], store, ⟨1, 0, 1⟩)) ∧
    (∀ (store : RStore) (uid : String) (n : ℕ),
      redisGet store ("user:" ++ uid ++ ":families") = Option.none →
        iterUserFamilyIds true (RepoResult.rows []) uid n store = (store, n)) := by
  refine ⟨?_, ?_, ?_⟩
  · intro ce store repo uid hset
    cases ce with
    | false =>
        rcases repo with _ | _ | ids <;> simp [getUserFamilyIds] at hset
    | true =>
        rcases hget : redisGet store ("user:" ++ uid ++ ":families") with _ | v
        · rcases repo with _ | _ | ids
          · simp [getUserFamilyIds, hget] at hset
          · simp [getUserFamilyIds, hget] at hset
          · by_cases hlen : ids.length > 0
            · simp [getUserFamilyIds, hget, hlen]
              intro hnil
              rw [hnil] at hlen
              simp at hlen
            · simp [getUserFamilyIds, hget, hlen] at hset
        · by_cases htr : jsTruthy v
          · simp [getUserFamilyIds, hget, htr] at hset
          · rcases repo with _ | _ | ids
            · simp [getUserFamilyIds, hget, htr] at hset
            · simp [getUserFamilyIds, hget, htr] at hset
            · by_cases hlen : ids.length > 0
              · simp [getUserFamilyIds, hget, htr, hlen]
                intro hnil
                rw [hnil] at hlen
                simp at hlen
              · simp [getUserFamilyIds, hget, htr, hlen] at hset
  · intro store uid hmiss
    simp [getUserFamilyIds, hmiss]
  · intro store uid n hmiss
    induction n generalizing store with
    | zero => simp [iterUserFamilyIds]
    | succ k ih =>
        simp [iterUserFamilyIds, getUserFamilyIds, hmiss, ih store hmiss,
          Nat.add_comm]

/-- Witness for `C10_empty_families_never_cached` at a concrete empty
store and user. -/
theorem C10_empty_families_never_cached_witness :
    (redisGet [] ("user:" ++ "u9" ++ ":families") = Option.none) ∧
    iterUserFamilyIds true (RepoResult.rows []) "u9" 3 [] = ([], 3) :=
  ⟨rfl, C10_empty_families_never_cached.2.2 [] "u9" 3 rfl⟩

/-! ## Claim C6 -/

lemma presenceEvents_connection (uid : String) (fams : List String) :
    presenceEvents ((fams.map (fun f =>
      [GwEffect.joinRoom ("family:" ++ f), GwEffect.setOnline uid f true,
       GwEffect.presenceUpdate ("family:" ++ f) uid f "online"])).flatten) =
    fams.map (fun f => (uid, f, "online")) := by
  induction fams with
  | nil => rfl
  | cons f fs ih =>
      simpa [presenceEvents, List.filterMap_cons] using ih

lemma presenceEvents_disconnection (uid : String) (fams : List String) :
    presenceEvents ((fams.map (fun f =>
      [GwEffect.setOnline uid f false,
       GwEffect.presenceUpdate ("family:" ++ f) uid f "offline"])).flatten) =
    fams.map (fun f => (uid, f, "offline")) := by
  induction fams with
  | nil => rfl
  | cons f fs ih =>
      simpa [presenceEvents, List.filterMap_cons] using ih

/-- C6: every successfully authenticated connection broadcasts one
`online` presence update per family of the user; a disconnect broadcasts
`offline` presence updates — one per family — exactly when it removes
the user's last tracked socket (the socket set becomes empty), and
broadcasts nothing when other sockets remain or the user is untracked. -/
theorem C6_presence_on_last_disconnect (cu : ConnectedUsers)
    (uid sid : String) (fams : List String) :
    presenceEvents (handleConnection cu uid sid fams).2 =
      fams.map (fun f => (uid, f, "online")) ∧
    (∀ l, cuSockets cu uid = some l → l.erase sid = [] →
      presenceEvents (handleDisconnect cu uid sid fams).2 =
        fams.map (fun f => (uid, f, "offline"))) ∧
    (∀ l, cuSockets cu uid = some l → l.erase sid ≠ [] →
      (handleDisconnect cu uid sid fams).2 = []) ∧
    (cuSockets cu uid = Option.none → (handleDisconnect cu uid sid fams).2 = []) := by
  refine ⟨?_, ?_, ?_, ?_⟩
  · simp [handleConnection, presenceEvents, List.filterMap_append]
    simpa [presenceEvents] using presenceEvents_connection uid fams
  · intro l hl herase
    simp [handleDisconnect, hl, herase]
    simpa [presenceEvents] using presenceEvents_disconnection uid fams
  · intro l hl herase
    simp [handleDisconnect, hl, herase]
  · intro hnone
    simp [handleDisconnect, hnone]

/-- Witness for `C6_presence_on_last_disconnect`: u1's single socket s1
disconnects — exactly one `offline` broadcast for its family fA. -/
theorem C6_presence_on_last_disconnect_witness :
    (cuSockets [("u1", ["s1"])] "u1" = some ["s1"] ∧ ["s1"].erase "s1" = []) ∧
    presenceEvents (handleDisconnect [("u1", ["s1"])] "u1" "s1" ["fA"]).2 =
      ["fA"].map (fun f => ("u1", f, "offline")) :=
  ⟨⟨rfl, rfl⟩,
    (C6_presence_on_last_disconnect [("u1", ["s1"])] "u1" "s1" ["fA"]).2.1
      ["s1"] rfl rfl⟩

/-! ## Claim C9 -/

/-- C9: delivery of a message invokes every callback registered on the
channel (each inside its own try/catch — the invocation log records one
entry per callback, in registration order, whether or not it threw),
leaves the subscriber map unchanged, and a subsequent message on the
channel is again delivered to every callback, including any that threw
on the previous message. -/
theorem C9_delivery_isolated (subs : SubscriberMap) (channel m1 m2 : String)
    (cbs : List Subscriber) (h : subs.lookup channel = some cbs) :
    (handleMessage subs channel m1).2 = subs ∧
    (handleMessage subs channel m1).1.map Prod.fst = cbs.map Subscriber.sid ∧
    (∀ cb ∈ cbs, (cb.sid, throwsAt cb m1) ∈ (handleMessage subs channel m1).1) ∧
    (handleMessage (handleMessage subs channel m1).2 channel m2).1.map
        Prod.fst = cbs.map Subscriber.sid := by
  refine ⟨?_, ?_, ?_, ?_⟩
  · simp [handleMessage, h]
  · simp [handleMessage, h]
  · intro cb hcb
    simp only [handleMessage, h]
    exact List.mem_map_of_mem (fun cb => (cb.sid, throwsAt cb m1)) hcb
  · simp [handleMessage, h]

/-- A callback that throws on the message "boom". -/
def subThrow : Subscriber := ⟨1, ["boom"]⟩

/-- A callback that never throws. -/
def subOk : Subscriber := ⟨2, []⟩

/-- A subscriber map with both callbacks registered on channel ch. -/
def subsX : SubscriberMap := [("ch", [subThrow, subOk])]

/-- Witness for `C9_delivery_isolated`: on "boom", subscriber 1 throws
(flag `true` in the log) yet subscriber 2 is still invoked, the map is
unchanged, and the next message reaches both again. -/
theorem C9_delivery_isolated_witness :
    (subsX.lookup "ch" = some [subThrow, subOk]) ∧
    ((handleMessage subsX "ch" "boom").2 = subsX ∧
      (handleMessage subsX "ch" "boom").1.map Prod.fst =
        [subThrow, subOk].map Subscriber.sid ∧
      (∀ cb ∈ [subThrow, subOk],
        (cb.sid, throwsAt cb "boom") ∈ (handleMessage subsX "ch" "boom").1) ∧
      (handleMessage (handleMessage subsX "ch" "boom").2 "ch" "next").1.map
          Prod.fst = [subThrow, subOk].map Subscriber.sid) :=
  ⟨rfl, C9_delivery_isolated subsX "ch" "boom" "next" [subThrow, subOk] rfl⟩

/-! ## Claim C8 -/

/-- In a list strictly sorted by id, any element at or before an element
of the `take n` prefix is itself in that prefix. -/
lemma mem_take_of_sorted :
    ∀ (l : List StreamEntry) (n : ℕ) (e m : StreamEntry),
      l.Pairwise (fun a b => a.id < b.id) → e ∈ l → m ∈ l.take n →
      e.id ≤ m.id → e ∈ l.take n
  | [], _, e, _, _, he, _, _ => absurd he (List.not_mem_nil e)
  | _ :: _, 0, _, m, _, _, hm, _ => absurd hm (List.not_mem_nil m)
  | x :: xs, n + 1, e, m, hs, he, hm, hle => by
      rw [List.take_succ_cons] at hm ⊢
      rcases List.mem_cons.mp he with he | he
      · exact he ▸ List.mem_cons_self x _
      · rcases List.mem_cons.mp hm with hm | hm
        · have hx : x.id < e.id := (List.pairwise_cons.mp hs).1 e he
          subst hm
          omega
        · exact List.mem_cons_of_mem x
            (mem_take_of_sorted xs n e m hs.of_cons he hm hle)

/-- In a list strictly sorted by id, every element's id is at most the
last element's id. -/
lemma le_getLast_of_sorted :
    ∀ (l : List StreamEntry) (x m : StreamEntry),
      l.Pairwise (fun a b => a.id < b.id) → x ∈ l → l.getLast? = some m →
      x.id ≤ m.id
  | [], x, _, _, hx, _ => absurd hx (List.not_mem_nil x)
  | [y], x, m, _, hx, hm => by
      rcases List.mem_singleton.mp hx with rfl
      simp only [List.getLast?_singleton, Option.some.injEq] at hm
      exact le_of_eq (congrArg StreamEntry.id hm)
  | y :: z :: zs, x, m, hs, hx, hm => by
      rw [List.getLast?_cons_cons] at hm
      rcases List.mem_cons.mp hx with rfl | hx
      · have hmem : m ∈ z :: zs := List.mem_of_getLast?_eq_some hm
        have := (List.pairwise_cons.mp hs).1 m hmem
        omega
      · exact le_getLast_of_sorted (z :: zs) x m hs.of_cons hx hm

/-- A stream entry whose record carries `batteryLevel = 0`. -/
def entryB0 : StreamEntry :=
  { id := 1, user_id := "u1", latitude := 40, longitude := -74, accuracy := 8
    timestamp := 1700000000000, batteryLevel := some 0
    server_timestamp := 1700000000500 }

/-- C8 (counterexample): for a log record that *has* the battery field,
with value 0, history returns batteryLevel 100 — `msg.batteryLevel || '100'`
treats the falsy 0 like a missing field — so the returned value is not
the integer decode of the stored field and the "default only when the
record lacks the field" clause fails. -/
theorem C8_counterexample :
    entryB0.batteryLevel = some 0 ∧
    (getLocationHistory [entryB0] (some "u1") 10 Option.none).locations.map
        (fun l => l.batteryLevel) = [100] ∧
    (100 : ℤ) ≠ 0 := by
  refine ⟨rfl, ?_, by decide⟩
  decide

/-- C8 (amended): over a stream strictly sorted by id, history decodes
each returned entry's fields (latitude/longitude/accuracy as the stored
rationals, timestamp and server_timestamp as the stored integers,
batteryLevel as `parseInt(batteryLevel || '100')` — 100 when the field
is missing *or* falsy); when nothing passes the filter the reported
`lastId` is the supplied cursor; and the cursor is exact: every returned
location lies at or before the reported `lastId`, and every matching
entry beyond the supplied cursor but not beyond the reported `lastId`
is among the returned locations — so continuing from `lastId` skips no
matching sample. -/
theorem C8_history_cursor_no_skip (stream : List StreamEntry)
    (userId : Option String) (limit : ℕ) (c : Option ℕ)
    (hs : stream.Pairwise (fun a b => a.id < b.id)) :
    ((getLocationHistory stream userId limit c).locations = [] →
      (getLocationHistory stream userId limit c).lastId = c) ∧
    (∀ loc ∈ (getLocationHistory stream userId limit c).locations,
      ∃ e, e ∈ stream ∧ matchesUser userId e = true ∧ idAfter c e.id = true ∧
        loc = decodeEntry e ∧
        idAfter (getLocationHistory stream userId limit c).lastId e.id = false) ∧
    (∀ e ∈ stream, matchesUser userId e = true → idAfter c e.id = true →
      idAfter (getLocationHistory stream userId limit c).lastId e.id = false →
      decodeEntry e ∈ (getLocationHistory stream userId limit c).locations) := by
  have hA : (stream.filter (fun e => idAfter c e.id)).Pairwise
      (fun a b => a.id < b.id) := hs.filter _
  have hW : ((stream.filter (fun e => idAfter c e.id)).take limit).Pairwise
      (fun a b => a.id < b.id) :=
    hA.sublist (List.take_sublist limit _)
  have hF : (((stream.filter (fun e => idAfter c e.id)).take limit).filter
      (matchesUser userId)).Pairwise (fun a b => a.id < b.id) :=
    hW.filter _
  refine ⟨?_, ?_, ?_⟩
  · intro h
    simp only [getLocationHistory, readStream] at h ⊢
    have hnil := List.map_eq_nil_iff.mp h
    rw [hnil]
    rfl
  · intro loc hloc
    simp only [getLocationHistory, readStream] at hloc ⊢
    obtain ⟨f, hf, rfl⟩ := List.mem_map.mp hloc
    have hfW := (List.mem_filter.mp hf).1
    have hfMatch := (List.mem_filter.mp hf).2
    have hfA := List.mem_of_mem_take hfW
    have hfStream := (List.mem_filter.mp hfA).1
    have hfAfter := (List.mem_filter.mp hfA).2
    rcases hlast : (((stream.filter (fun e => idAfter c e.id)).take
        limit).filter (matchesUser userId)).getLast? with _ | m
    · rw [List.getLast?_eq_none_iff.mp hlast] at hf
      exact absurd hf (List.not_mem_nil f)
    · refine ⟨f, hfStream, hfMatch, hfAfter, rfl, ?_⟩
      rw [hlast]
      have hle : f.id ≤ m.id := le_getLast_of_sorted _ f m hF hf hlast
      simp [idAfter, decodeEntry]
      omega
  · intro e he hmatch hafter hnot
    simp only [getLocationHistory, readStream] at hnot ⊢
    rcases hlast : (((stream.filter (fun e => idAfter c e.id)).take
        limit).filter (matchesUser userId)).getLast? with _ | m
    · rw [hlast] at hnot
      simp only at hnot
      rw [hafter] at hnot
      exact absurd hnot (by simp)
    · rw [hlast] at hnot
      simp only [idAfter] at hnot
      have hle : e.id ≤ m.id := by
        by_contra hgt
        simp at hnot
        omega
      have hmF := List.mem_of_getLast?_eq_some hlast
      have hmW := (List.mem_filter.mp hmF).1
      have heA : e ∈ stream.filter (fun x => idAfter c x.id) :=
        List.mem_filter.mpr ⟨he, hafter⟩
      have heW := mem_take_of_sorted _ limit e m hA heA hmW hle
      have heF := List.mem_filter.mpr ⟨heW, hmatch⟩
      exact List.mem_map_of_mem decodeEntry heF

/-- Witness for `C8_history_cursor_no_skip` on a concrete two-entry
stream: entry 2 (user u2) does not match the u1 filter, entry 1 does
and is returned at cursor `none`. -/
theorem C8_history_cursor_no_skip_witness :
    ([entryB0, { entryB0 with id := 2, user_id := "u2" }].Pairwise
        (fun a b => a.id < b.id)) ∧
    (entryB0 ∈ [entryB0, { entryB0 with id := 2, user_id := "u2" }] ∧
      matchesUser (some "u1") entryB0 = true ∧
      idAfter Option.none entryB0.id = true ∧
      idAfter (getLocationHistory
        [entryB0, { entryB0 with id := 2, user_id := "u2" }]
        (some "u1") 10 Option.none).lastId entryB0.id = false ∧
      decodeEntry entryB0 ∈ (getLocationHistory
        [entryB0, { entryB0 with id := 2, user_id := "u2" }]
        (some "u1") 10 Option.none).locations) :=
  ⟨by decide,
    by
      refine ⟨by decide, by decide, by decide, by decide, ?_⟩
      exact (C8_history_cursor_no_skip
        [entryB0, { entryB0 with id := 2, user_id := "u2" }]
        (some "u1") 10 Option.none (by decide)).2.2 entryB0 (by decide)
        (by decide) (by decide) (by decide)⟩

/-! ## Claim C4 -/

/-- C4: for random draws in `[0,1)`, the masked point's Euclidean
displacement from the input, in degrees, equals the blur radius
`0.005 + rand1 * 0.005`, which lies in `[0.005, 0.010]`; the reported
accuracy is exactly 1000; and the displacement angle `rand2 * 2π` lies in
`[0, 2π)` and is uniformly distributed there: for every sub-interval
`[a, b) ⊆ [0, 2π)`, the set of draws mapped into it has Lebesgue measure
`(b - a) / 2π` — the uniform distribution on `[0, 2π)`. -/
theorem C4_mask_displacement_and_angle (lat lon r1 r2 : ℝ)
    (h1 : 0 ≤ r1) (h2 : r1 < 1) (h3 : 0 ≤ r2) (h4 : r2 < 1) :
    Real.sqrt (((maskLocation lat lon r1 r2).latitude - lat) ^ 2 +
        ((maskLocation lat lon r1 r2).longitude - lon) ^ 2) =
      blurRadiusInDegrees r1 ∧
    0.005 ≤ blurRadiusInDegrees r1 ∧ blurRadiusInDegrees r1 ≤ 0.010 ∧
    (maskLocation lat lon r1 r2).accuracy = 1000 ∧
    0 ≤ maskAngle r2 ∧ maskAngle r2 < 2 * Real.pi ∧
    (∀ a b : ℝ, 0 ≤ a → a ≤ b → b ≤ 2 * Real.pi →
      MeasureTheory.volume
          {r : ℝ | 0 ≤ r ∧ r < 1 ∧ a ≤ maskAngle r ∧ maskAngle r < b} =
        ENNReal.ofReal ((b - a) / (2 * Real.pi))) := by
  have hpi := Real.pi_pos
  have h2pi : (0 : ℝ) < 2 * Real.pi := by nlinarith
  have hR0 : 0 ≤ blurRadiusInDegrees r1 := by
    unfold blurRadiusInDegrees
    nlinarith
  refine ⟨?_, ?_, ?_, ?_, ?_, ?_, ?_⟩
  · have hlat : (maskLocation lat lon r1 r2).latitude - lat =
        blurRadiusInDegrees r1 * Real.cos (maskAngle r2) := by
      simp [maskLocation]
    have hlon : (maskLocation lat lon r1 r2).longitude - lon =
        blurRadiusInDegrees r1 * Real.sin (maskAngle r2) := by
      simp [maskLocation]
    rw [hlat, hlon]
    have hsum : (blurRadiusInDegrees r1 * Real.cos (maskAngle r2)) ^ 2 +
        (blurRadiusInDegrees r1 * Real.sin (maskAngle r2)) ^ 2 =
        blurRadiusInDegrees r1 ^ 2 := by
      have hsc := Real.sin_sq_add_cos_sq (maskAngle r2)
      nlinarith [hsc]
    rw [hsum, Real.sqrt_sq hR0]
  · unfold blurRadiusInDegrees
    nlinarith
  · unfold blurRadiusInDegrees
    nlinarith
  · simp [maskLocation]
  · unfold maskAngle
    nlinarith
  · unfold maskAngle
    nlinarith
  · intro a b ha hab hb
    have hset : {r : ℝ | 0 ≤ r ∧ r < 1 ∧ a ≤ maskAngle r ∧ maskAngle r < b} =
        Set.Ico (a / (2 * Real.pi)) (b / (2 * Real.pi)) := by
      ext r
      simp only [Set.mem_setOf_eq, Set.mem_Ico, maskAngle]
      constructor
      · rintro ⟨hr0, hr1, hra, hrb⟩
        constructor
        · rw [div_le_iff₀ h2pi]
          nlinarith
        · rw [lt_div_iff₀ h2pi]
          nlinarith
      · rintro ⟨hge, hlt⟩
        have hra : a ≤ r * (2 * Real.pi) := (div_le_iff₀ h2pi).mp hge
        have hrb : r * (2 * Real.pi) < b := (lt_div_iff₀ h2pi).mp hlt
        have hd0 : 0 ≤ a / (2 * Real.pi) := div_nonneg ha (le_of_lt h2pi)
        have hd1 : b / (2 * Real.pi) ≤ 1 := (div_le_one h2pi).mpr hb
        refine ⟨by linarith, by linarith, by nlinarith, by nlinarith⟩
    rw [hset, Real.volume_Ico]
    congr 1
    rw [div_sub_div_same]

/-- Witness for `C4_mask_displacement_and_angle` at draws `(0, 0)` and
the origin. -/
theorem C4_mask_displacement_and_angle_witness :
    ((0 : ℝ) ≤ 0 ∧ (0 : ℝ) < 1) ∧
    ((maskLocation 0 0 0 0).accuracy = 1000 ∧
      0.005 ≤ blurRadiusInDegrees 0 ∧ blurRadiusInDegrees 0 ≤ 0.010) :=
  ⟨⟨le_rfl, by norm_num⟩,
    ⟨(C4_mask_displacement_and_angle 0 0 0 0 le_rfl (by norm_num) le_rfl
        (by norm_num)).2.2.2.1,
      (C4_mask_displacement_and_angle 0 0 0 0 le_rfl (by norm_num) le_rfl
        (by norm_num)).2.1,
      (C4_mask_displacement_and_angle 0 0 0 0 le_rfl (by norm_num) le_rfl
        (by norm_num)).2.2.1⟩⟩

end FamBackend
